import Mathlib

/-!
Shallow embedding of the delivery-minigame core of this repository
(src/experiment/src/game.rs, src/experiment/src/controls.rs,
src/experiment/src/session.rs), together with theorems checking the
natural-language specification against it.

Machine integers (`usize`) become `ℕ`; `geom::Duration` values become `ℚ`;
the `f64` quantities of the movement integrator become `ℝ`.  File IO,
rendering and panel layout are outside the embedded core: IO is abstracted
into explicit inputs/outputs and render calls are dropped.
-/

namespace Santa

/-! ## Levels and the session ledger (src/experiment/src/session.rs) -/

/-- Modelled from the spec: the per-level configuration (`Level` in
levels.rs, which is not among the sources here).  The fields are the ones
game.rs and session.rs read: `title`, `time_limit`, `goal`,
`unlock_upzones`, `unlock_vehicles`. -/
structure Level where
  title : String
  time_limit : ℚ
  goal : ℕ
  unlock_upzones : ℕ
  unlock_vehicles : List String
deriving DecidableEq, Repr

/-- The persistent cross-run state (`Session` in session.rs).  The Rust
`HashMap<String, Vec<usize>>` of high scores is modelled as an association
list queried by `List.lookup`. -/
structure Session where
  levels : List Level
  high_scores : List (String × List ℕ)
  levels_unlocked : ℕ
  current_vehicle : String
  vehicles_unlocked : List String
  upzones_unlocked : ℕ
deriving DecidableEq, Repr

/-- The default ledger that `Session::load` builds when no usable persisted
session exists. -/
def default_session (levels : List Level) : Session where
  levels := levels
  high_scores := levels.map fun level => (level.title, [])
  levels_unlocked := 1
  current_vehicle := "sleigh"
  vehicles_unlocked := ["sleigh"]
  upzones_unlocked := 0

/-- Model of `Session::load`.  File IO is abstracted: `parsed` is the outcome of
`abstutil::maybe_read_json` (`none` when the file is missing or malformed)
and `levels` is `Level::all()`.  The boolean records whether the staleness
warning was logged. -/
def load (parsed : Option Session) (levels : List Level) : Session × Bool :=
  match parsed with
  | some session =>
      if session.levels = levels then (session, false)
      else (default_session levels, true)
  | none => (default_session levels, false)

/-- The high-score list update in `Session::record_score`:
`scores.push(score); scores.sort(); scores.reverse(); scores.truncate(3)`.
Rust `sort` is an ascending stable sort; on `ℕ` it agrees pointwise with
`List.insertionSort (· ≤ ·)`. -/
def updated_scores (scores : List ℕ) (score : ℕ) : List ℕ :=
  (((scores ++ [score]).insertionSort (· ≤ ·)).reverse).take 3

/-- Result of a `Session::record_score` call that returns: the mutated
session, the optional unlock messages, and the sequence of `write_json`
persists issued before returning (each records the session value written). -/
structure RecordOutcome where
  session : Session
  msg : Option (List String)
  writes : List Session
deriving DecidableEq, Repr

/-- The unlock evaluation of `Session::record_score`, applied to the
session `s1` whose high scores were already updated: on the most recently
unlocked level with the goal met, either report completion (last level) or
unlock the next level, the upzones and the vehicles.  The source guards the
`upzones_unlocked` addition by `unlock_upzones > 0`; since adding zero is
the identity, the guard only matters for the message. -/
def unlock_result (s1 : Session) (idx : ℕ) (lvl : Level) (score : ℕ) :
    Session × Option (List String) :=
  if idx + 1 = s1.levels_unlocked ∧ lvl.goal ≤ score then
    if idx + 1 = s1.levels.length then
      (s1, some ["All levels complete! Nice.",
                 "Can you improve your score on other levels?"])
    else
      ({ s1 with
          levels_unlocked := s1.levels_unlocked + 1,
          upzones_unlocked := s1.upzones_unlocked + lvl.unlock_upzones,
          vehicles_unlocked := s1.vehicles_unlocked ++ lvl.unlock_vehicles },
       some (["New level unlocked!"] ++
         (if 0 < lvl.unlock_upzones then
            ["Unlocked the ability to upzone "
              ++ toString lvl.unlock_upzones ++ " buildings"]
          else []) ++
         lvl.unlock_vehicles.map fun x => "Unlocked the " ++ x))
  else (s1, none)

/-- Model of `Session::record_score`.  Here `none` models a panic: the source unwraps the
high-score lookup and the level-position lookup for the given title. -/
def record_score (s : Session) (level : String) (score : ℕ) :
    Option RecordOutcome := do
  let scores ← s.high_scores.lookup level
  let scores2 := updated_scores scores score
  let high_scores2 := s.high_scores.map fun p =>
    if p.1 = level then (p.1, scores2) else p
  let idx ← s.levels.findIdx? fun lvl => lvl.title == level
  let lvl ← s.levels[idx]?
  let res := unlock_result { s with high_scores := high_scores2 } idx lvl score
  return { session := res.1, msg := res.2, writes := [res.1] }

/-- Model of `Session::unlock_all`.  The second component is the list of persists
issued: the source issues none. -/
def unlock_all (s : Session) : Session × List Session :=
  let s1 := s.levels.foldl
    (fun acc level =>
      { acc with
        vehicles_unlocked := acc.vehicles_unlocked ++ level.unlock_vehicles,
        upzones_unlocked := acc.upzones_unlocked + level.unlock_upzones })
    s
  ({ s1 with levels_unlocked := s1.levels.length }, [])

/-! ## Game state and the per-tick update (src/experiment/src/game.rs) -/

/-- Modelled from the spec: the delivery state of one building (`BldgState`
in buildings.rs, which is not among the sources here); the variants are the
ones game.rs matches on: `Undelivered(num_housing_units)`, `Store`, `Done`. -/
inductive BldgState where
  | Undelivered (num_housing_units : ℕ)
  | Store
  | Done
deriving DecidableEq, Repr

/-- Modelled from the spec: the static vehicle configuration (`Vehicle` in
vehicles.rs, which is not among the sources here); the fields are the ones
game.rs reads: `normal_speed`, `tired_speed`, `max_energy`, `max_boost`. -/
structure Vehicle where
  normal_speed : ℚ
  tired_speed : ℚ
  max_energy : ℕ
  max_boost : ℚ
deriving DecidableEq, Repr

/-- The constant `ACQUIRE_BOOST_RATE: f64 = 0.5`. -/
def ACQUIRE_BOOST_RATE : ℚ := 1 / 2

/-- The constant `BOOST_SPEED_MULTIPLIER: f64 = 2.0`. -/
def BOOST_SPEED_MULTIPLIER : ℚ := 2

/-- The run state (`GameState` in game.rs).  The buildings map
(`Buildings::buildings`, a `HashMap<BuildingID, BldgState>`) is modelled as
a total function on building ids; the proximity events the map collaborator
delivers always carry ids present in the map.  The two render fields
(`draw_done_houses`, `energyless_arrow`) are display-only and dropped. -/
structure GameState where
  level : Level
  vehicle : Vehicle
  buildings : ℕ → BldgState
  score : ℕ
  energy : ℕ
  boost : ℚ

/-- Model of `GameState::new`: score 0, energy full, boost zero. -/
def GameState.init (level : Level) (vehicle : Vehicle)
    (buildings : ℕ → BldgState) : GameState where
  level := level
  vehicle := vehicle
  buildings := buildings
  score := 0
  energy := vehicle.max_energy
  boost := 0

/-- Model of `GameState::has_energy`. -/
def GameState.has_energy (s : GameState) : Bool := 0 < s.energy

/-- Model of `GameState::present_dropped`: on an `Undelivered` building with positive
energy, deliver `min(num_housing_units, energy)` units, add them to the
score, mark the building `Done`, subtract them from the energy and return
the amount; otherwise change nothing and return `none`.  The
`recalc_deliveries` call only rebuilds a render batch and is dropped. -/
def present_dropped (s : GameState) (id : ℕ) : GameState × Option ℕ :=
  if ¬ s.has_energy then (s, none)
  else
    match s.buildings id with
    | BldgState.Undelivered num_housing_units =>
        let deliveries := min num_housing_units s.energy
        ({ s with
            score := s.score + deliveries,
            buildings := Function.update s.buildings id BldgState.Done,
            energy := s.energy - deliveries },
         some deliveries)
    | _ => (s, none)

/-- The event the per-building dispatch of `Game::event` emits towards the
effect scheduler: a delivery of `n` units or a refill of `n` units. -/
inductive GameEvent where
  | delivered (n : ℕ)
  | refilled (n : ℕ)
deriving DecidableEq, Repr

/-- The per-building dispatch in `Game::event` (the `match
self.state.bldgs.buildings[&b]` loop body): `Undelivered` goes through
`present_dropped`, `Store` refills the energy to `max_energy` when some is
missing, `Done` is a no-op.  The animator calls only schedule visual
effects; the emitted `GameEvent` records that an effect-carrying event
happened and its magnitude. -/
def processBuilding (s : GameState) (b : ℕ) : GameState × Option GameEvent :=
  match s.buildings b with
  | BldgState.Undelivered _ =>
      match present_dropped s b with
      | (s1, some increase) => (s1, some (GameEvent.delivered increase))
      | (s1, none) => (s1, none)
  | BldgState.Store =>
      let refill := s.vehicle.max_energy - s.energy
      if 0 < refill then
        ({ s with energy := s.energy + refill }, some (GameEvent.refilled refill))
      else (s, none)
  | BldgState.Done => (s, none)

/-- The proximity loop of `Game::event`: dispatch every building the player
hit this tick, in order. -/
def processBuildings (s : GameState) (bs : List ℕ) : GameState :=
  bs.foldl (fun s1 b => (processBuilding s1 b).1) s

/-- The dynamic part of the `Game` struct: accumulated time plus the run
state. -/
structure GameSt where
  time : ℚ
  state : GameState

/-- The whole run as a state machine: `active` while the `Game` state is
live, `ended` once it has been replaced by the results screen (which
receives the final score). -/
inductive Phase where
  | active (g : GameSt)
  | ended (score : ℕ)

/-- One externally delivered update event, carrying the elapsed time `dt`
together with the inputs the tick reads: whether the boost key (space) is
held, which buildings the player hit (`Player::update_with_speed`), and
whether the player is on a boost-qualifying road (`Player::on_good_road`). -/
structure TickInput where
  dt : ℚ
  spaceHeld : Bool
  hitBuildings : List ℕ
  onGoodRoad : Bool

/-- The boost depletion in the speed computation of `Game::event`: while
the space key is held and boost is positive, subtract the elapsed time,
clamped at zero. -/
def boostDeplete (s : GameState) (inp : TickInput) : GameState :=
  if inp.spaceHeld ∧ 0 < s.boost then
    { s with boost := max (s.boost - inp.dt) 0 }
  else s

/-- The boost accrual at the end of `Game::event`: on a qualifying road,
add `dt * ACQUIRE_BOOST_RATE`, clamped at `max_boost`. -/
def boostAccrue (s : GameState) (inp : TickInput) : GameState :=
  if inp.onGoodRoad then
    { s with boost := min (s.boost + inp.dt * ACQUIRE_BOOST_RATE) s.vehicle.max_boost }
  else s

/-- One tick of `Game::event` (for an update event).  Accumulate time; if
the elapsed time reaches the level time limit, replace the game by the
results screen carrying the score.  Otherwise deplete boost while the space
key is held and boost is positive, dispatch the proximity events, and
accrue boost when on a qualifying road.  Once ended, no event is processed
any more. -/
def tick (p : Phase) (inp : TickInput) : Phase :=
  match p with
  | Phase.ended sc => Phase.ended sc
  | Phase.active g =>
      if g.state.level.time_limit ≤ g.time + inp.dt then Phase.ended g.state.score
      else
        Phase.active
          ⟨g.time + inp.dt,
           boostAccrue (processBuildings (boostDeplete g.state inp) inp.hitBuildings) inp⟩

/-- A whole run: fold `tick` over a list of update events. -/
def runTicks (p : Phase) (ts : List TickInput) : Phase :=
  ts.foldl tick p

/-! ## Movement integrator (src/experiment/src/controls.rs) -/

/-- The constant `HACK: f64 = 5.0`, the empirical scale constant of the movement
integrator. -/
def HACK : ℝ := 5

/-- Which directional keys are currently held down. -/
structure DirKeys where
  left : Bool
  right : Bool
  up : Bool
  down : Bool

/-- The x component of the net direction vector in
`InstantController::displacement`: `+1` for the left arrow, `-1` for the
right arrow (the sprite-orientation inversion of the source). -/
def netX (keys : DirKeys) : ℝ :=
  (if keys.left then 1 else 0) - (if keys.right then 1 else 0)

/-- The y component of the net direction vector: `+1` for up, `-1` for
down. -/
def netY (keys : DirKeys) : ℝ :=
  (if keys.up then 1 else 0) - (if keys.down then 1 else 0)

/-- Two-argument arctangent, the semantics of `f64::atan2(y, x)`: the
argument of the complex number `x + y i`, in `(-π, π]`. -/
noncomputable def atan2 (y x : ℝ) : ℝ := Complex.arg ⟨x, y⟩

open Classical in
/-- Model of `InstantController::displacement`.  Inputs: the stored facing angle,
the pending update event (`none` when no tick is available) and its elapsed
time, the held directional keys, and the speed.  Output: the optional
displacement pair and the new facing angle.  `Angle::normalized_radians`
only normalizes the angle modulo `2π` before `sin_cos`, which leaves sine
and cosine unchanged, so the model applies `cos`/`sin` to the facing angle
directly. -/
noncomputable def displacement (facing : ℝ) (dt : Option ℝ) (keys : DirKeys)
    (speed : ℝ) : Option (ℝ × ℝ) × ℝ :=
  match dt with
  | none => (none, facing)
  | some dt =>
      if netX keys = 0 ∧ netY keys = 0 then (none, facing)
      else
        let facing2 := atan2 (netY keys) (netX keys)
        let magnitude := dt * HACK * speed
        (some (-magnitude * Real.cos facing2, -magnitude * Real.sin facing2), facing2)

/-! ## Concrete fixtures used by the witness theorems -/

/-- A small concrete vehicle. -/
def wVehicle : Vehicle :=
  { normal_speed := 2, tired_speed := 1, max_energy := 3, max_boost := 10 }

/-- A small concrete level. -/
def wLevel : Level :=
  { title := "Level 1", time_limit := 60, goal := 100, unlock_upzones := 1,
    unlock_vehicles := ["car"] }

/-- A buildings map with one undelivered building and stores elsewhere. -/
def wBuildings : ℕ → BldgState :=
  fun b => if b = 0 then BldgState.Undelivered 5 else BldgState.Store

/-- The freshly initialized run state over `wBuildings`. -/
def wState : GameState := GameState.init wLevel wVehicle wBuildings

/-- A run state whose buildings are all already `Done`. -/
def wDoneState : GameState :=
  GameState.init wLevel wVehicle fun _ => BldgState.Done

/-- A run state whose buildings are all stores. -/
def wStoreState : GameState :=
  GameState.init wLevel wVehicle fun _ => BldgState.Store

/-- A quiet tick: one second of time, no boost key, no building hit, not on
a qualifying road. -/
def wTick : TickInput :=
  { dt := 1, spaceHeld := false, hitBuildings := [], onGoodRoad := false }

/-! ## C1: the delivery transition -/

/-- C1: for a building in `Undelivered r` and current energy `e`: if
`e > 0`, the delivery proximity event adds exactly `min r e` to the score,
lowers the energy to `e - min r e`, marks the building `Done` and returns
an event of magnitude `min r e`; if `e = 0`, nothing changes and no event
is returned. -/
theorem delivery_transition (s : GameState) (id r : ℕ)
    (h : s.buildings id = BldgState.Undelivered r) :
    (0 < s.energy →
      processBuilding s id =
        ({ s with
            score := s.score + min r s.energy,
            buildings := Function.update s.buildings id BldgState.Done,
            energy := s.energy - min r s.energy },
         some (GameEvent.delivered (min r s.energy)))) ∧
    (s.energy = 0 → processBuilding s id = (s, none)) := by
  constructor
  · intro he
    simp [processBuilding, present_dropped, GameState.has_energy, h, he]
  · intro he
    simp [processBuilding, present_dropped, GameState.has_energy, h, he]

/-- Witness for C1 at a concrete state: building 0 is `Undelivered 5`, the
energy is 3, and the delivery yields score 3, energy 0, building `Done`,
event magnitude 3. -/
theorem delivery_transition_witness :
    wState.buildings 0 = BldgState.Undelivered 5 ∧ 0 < wState.energy ∧
    processBuilding wState 0 =
      ({ wState with
          score := wState.score + min 5 wState.energy,
          buildings := Function.update wState.buildings 0 BldgState.Done,
          energy := wState.energy - min 5 wState.energy },
       some (GameEvent.delivered (min 5 wState.energy))) :=
  ⟨rfl, by decide, (delivery_transition wState 0 5 rfl).1 (by decide)⟩

/-! ## C5: the terminal transition at the time limit -/

/-- Auxiliary: once the game has ended, any further events leave the ended
phase (and its final score) untouched. -/
theorem runTicks_ended (sc : ℕ) (ts : List TickInput) :
    runTicks (Phase.ended sc) ts = Phase.ended sc := by
  induction ts with
  | nil => rfl
  | cons t ts ih => simpa [runTicks, tick] using ih

/-- C5: on the tick where the accumulated elapsed time reaches or exceeds
the level time limit, the game transitions to the ended phase carrying the
current score, with no run-state update processed on that tick; afterwards
no tick is processed at all. -/
theorem time_limit_terminal (g : GameSt) (t : TickInput)
    (h : g.state.level.time_limit ≤ g.time + t.dt) :
    tick (Phase.active g) t = Phase.ended g.state.score ∧
    (∀ (sc : ℕ) (ts : List TickInput), runTicks (Phase.ended sc) ts = Phase.ended sc) := by
  refine ⟨?_, fun sc ts => runTicks_ended sc ts⟩
  simp [tick, h]

/-- A long tick: two seconds of elapsed time, nothing else. -/
def wLongTick : TickInput :=
  { dt := 2, spaceHeld := false, hitBuildings := [], onGoodRoad := false }

/-- Witness for C5: with time limit 60, elapsed time 59 and a tick of 2
seconds, the game ends with the initial score 0, and ended phases absorb
further ticks. -/
theorem time_limit_terminal_witness :
    wLevel.time_limit ≤ (59 : ℚ) + 2 ∧
    tick (Phase.active ⟨59, wState⟩) wLongTick = Phase.ended wState.score ∧
    runTicks (Phase.ended 5) [wTick] = Phase.ended 5 := by
  have h : (⟨59, wState⟩ : GameSt).state.level.time_limit ≤
      (⟨59, wState⟩ : GameSt).time + wLongTick.dt := by
    norm_num [wState, GameState.init, wLevel, wLongTick]
  have h2 := time_limit_terminal ⟨59, wState⟩ wLongTick h
  exact ⟨h, h2.1, h2.2 5 [wTick]⟩

/-! ## C2: per-building monotonicity -/

/-- How one building's state may evolve across any amount of processing:
unchanged, or from `Undelivered` to `Done`. -/
def bldgStep (a b : BldgState) : Prop :=
  a = b ∨ ((∃ r, a = BldgState.Undelivered r) ∧ b = BldgState.Done)

theorem bldgStep_refl (a : BldgState) : bldgStep a a := Or.inl rfl

theorem bldgStep_trans {a b c : BldgState} (h1 : bldgStep a b)
    (h2 : bldgStep b c) : bldgStep a c := by
  rcases h1 with rfl | ⟨⟨r, rfl⟩, rfl⟩
  · exact h2
  · rcases h2 with rfl | ⟨⟨r2, h⟩, rfl⟩
    · exact Or.inr ⟨⟨r, rfl⟩, rfl⟩
    · cases h

theorem present_dropped_bldgStep (s : GameState) (id b : ℕ) :
    bldgStep (s.buildings b) ((present_dropped s id).1.buildings b) := by
  unfold present_dropped
  split
  · exact bldgStep_refl _
  · cases hid : s.buildings id with
    | Undelivered r =>
        simp only [hid]
        by_cases hb : b = id
        · subst hb
          exact Or.inr ⟨⟨r, hid⟩, by simp [Function.update_apply]⟩
        · exact Or.inl (by simp [Function.update_apply, hb])
    | Store => simp [hid, bldgStep_refl]
    | Done => simp [hid, bldgStep_refl]

theorem processBuilding_bldgStep (s : GameState) (b2 b : ℕ) :
    bldgStep (s.buildings b) ((processBuilding s b2).1.buildings b) := by
  unfold processBuilding
  cases hid : s.buildings b2 with
  | Undelivered r =>
      simp only
      cases hpd : present_dropped s b2 with
      | mk s1 ev =>
          have := present_dropped_bldgStep s b2 b
          rw [hpd] at this
          cases ev <;> simpa using this
  | Store =>
      simp only
      split <;> exact bldgStep_refl _
  | Done => exact bldgStep_refl _

theorem processBuildings_bldgStep (bs : List ℕ) (s : GameState) (b : ℕ) :
    bldgStep (s.buildings b) ((processBuildings s bs).buildings b) := by
  induction bs generalizing s with
  | nil => exact bldgStep_refl _
  | cons b2 bs ih =>
      exact bldgStep_trans (processBuilding_bldgStep s b2 b)
        (ih (processBuilding s b2).1)

theorem boostDeplete_buildings (s : GameState) (inp : TickInput) :
    (boostDeplete s inp).buildings = s.buildings := by
  unfold boostDeplete
  split <;> rfl

theorem boostAccrue_buildings (s : GameState) (inp : TickInput) :
    (boostAccrue s inp).buildings = s.buildings := by
  unfold boostAccrue
  split <;> rfl

theorem tick_bldgStep {g g1 : GameSt} {t : TickInput} (b : ℕ)
    (h : tick (Phase.active g) t = Phase.active g1) :
    bldgStep (g.state.buildings b) (g1.state.buildings b) := by
  simp only [tick] at h
  by_cases hc : g.state.level.time_limit ≤ g.time + t.dt
  · rw [if_pos hc] at h
    exact Phase.noConfusion h
  · rw [if_neg hc] at h
    injection h with h
    subst h
    simp only [boostAccrue_buildings]
    have h2 := processBuildings_bldgStep t.hitBuildings (boostDeplete g.state t) b
    rwa [boostDeplete_buildings] at h2

theorem runTicks_bldgStep {g g1 : GameSt} {ts : List TickInput} (b : ℕ)
    (h : runTicks (Phase.active g) ts = Phase.active g1) :
    bldgStep (g.state.buildings b) (g1.state.buildings b) := by
  induction ts generalizing g with
  | nil =>
      cases h
      exact bldgStep_refl _
  | cons t ts ih =>
      cases hstep : tick (Phase.active g) t with
      | ended sc =>
          rw [runTicks, List.foldl_cons, hstep] at h
          rw [show List.foldl tick (Phase.ended sc) ts = runTicks (Phase.ended sc) ts from rfl,
            runTicks_ended] at h
          cases h
      | active g2 =>
          rw [runTicks, List.foldl_cons, hstep] at h
          exact bldgStep_trans (tick_bldgStep b hstep) (ih h)

/-- The state of building `b` in a phase, when the run is still live. -/
def bldgOf (p : Phase) (b : ℕ) : Option BldgState :=
  match p with
  | Phase.active g => some (g.state.buildings b)
  | Phase.ended _ => none

/-- Whether this tick changes building `b`'s state (1) or not (0). -/
def changedAt (p : Phase) (t : TickInput) (b : ℕ) : ℕ :=
  match bldgOf p b, bldgOf (tick p t) b with
  | some a, some a1 => if a = a1 then 0 else 1
  | _, _ => 0

/-- How many ticks of a run change building `b`'s state. -/
def transitionCount : Phase → List TickInput → ℕ → ℕ
  | _, [], _ => 0
  | p, t :: ts, b => changedAt p t b + transitionCount (tick p t) ts b

theorem changedAt_ended (sc : ℕ) (t : TickInput) (b : ℕ) :
    changedAt (Phase.ended sc) t b = 0 := rfl

theorem changedAt_tick_ended {g : GameSt} {t : TickInput} {sc : ℕ} (b : ℕ)
    (h : tick (Phase.active g) t = Phase.ended sc) :
    changedAt (Phase.active g) t b = 0 := by
  simp [changedAt, bldgOf, h]

theorem changedAt_tick_active {g g1 : GameSt} {t : TickInput} (b : ℕ)
    (h : tick (Phase.active g) t = Phase.active g1) :
    changedAt (Phase.active g) t b =
      if g.state.buildings b = g1.state.buildings b then 0 else 1 := by
  simp [changedAt, bldgOf, h]

/-- A run that starts with building `b` already `Done`, or that has already
ended, never changes `b` again. -/
theorem transitionCount_done (b : ℕ) (ts : List TickInput) :
    ∀ p : Phase, (∀ g, p = Phase.active g → g.state.buildings b = BldgState.Done) →
      transitionCount p ts b = 0 := by
  induction ts with
  | nil => intro p _; rfl
  | cons t ts ih =>
      intro p hp
      have htail : ∀ g, tick p t = Phase.active g →
          g.state.buildings b = BldgState.Done := by
        intro g1 hg1
        cases p with
        | ended sc => simp [tick] at hg1
        | active g =>
            have hdone := hp g rfl
            rcases tick_bldgStep b hg1 with heq | ⟨⟨r, hr⟩, hdone1⟩
            · rw [← heq, hdone]
            · exact hdone1
      rw [transitionCount, ih (tick p t) htail]
      cases p with
      | ended sc => rfl
      | active g =>
          cases hstep : tick (Phase.active g) t with
          | ended sc => rw [changedAt_tick_ended b hstep]
          | active g1 =>
              rw [changedAt_tick_active b hstep, hp g rfl, htail g1 hstep]
              simp

/-- C2: a proximity event on a `Done` building changes nothing (building
states, score, energy) and emits no event; a `Store` building keeps its
state across any run; and over any run each building changes state at most
once (the change being `Undelivered` to `Done` by `tick_bldgStep`). -/
theorem building_state_monotonic (b : ℕ) :
    (∀ s : GameState, s.buildings b = BldgState.Done →
        processBuilding s b = (s, none)) ∧
    (∀ (g : GameSt) (ts : List TickInput) (g1 : GameSt),
        runTicks (Phase.active g) ts = Phase.active g1 →
        g.state.buildings b = BldgState.Store →
        g1.state.buildings b = BldgState.Store) ∧
    (∀ (p : Phase) (ts : List TickInput), transitionCount p ts b ≤ 1) := by
  refine ⟨?_, ?_, ?_⟩
  · intro s h
    simp [processBuilding, h]
  · intro g ts g1 hrun hstore
    rcases runTicks_bldgStep b hrun with heq | ⟨⟨r, hr⟩, _⟩
    · rw [← heq, hstore]
    · rw [hstore] at hr
      cases hr
  · intro p ts
    induction ts generalizing p with
    | nil => exact Nat.zero_le 1
    | cons t ts ih =>
        rw [transitionCount]
        cases p with
        | ended sc =>
            rw [changedAt_ended]
            simpa using ih (tick (Phase.ended sc) t)
        | active g =>
            cases hstep : tick (Phase.active g) t with
            | ended sc =>
                rw [changedAt_tick_ended b hstep]
                simpa using ih (Phase.ended sc)
            | active g1 =>
                by_cases hch : g.state.buildings b = g1.state.buildings b
                · rw [changedAt_tick_active b hstep, if_pos hch]
                  simpa using ih (Phase.active g1)
                · have hdone : g1.state.buildings b = BldgState.Done := by
                    rcases tick_bldgStep b hstep with heq | ⟨_, hd⟩
                    · exact absurd heq hch
                    · exact hd
                  have h0 : transitionCount (Phase.active g1) ts b = 0 :=
                    transitionCount_done b ts (Phase.active g1)
                      (fun g2 hg2 => by injection hg2 with hg2; rw [← hg2]; exact hdone)
                  rw [changedAt_tick_active b hstep, if_neg hch, h0]

/-- Witness for C2: a `Done` building absorbs a proximity event without any
change; a `Store` building is still a `Store` after a concrete quiet tick;
and the transition count of a concrete run is at most one. -/
theorem building_state_monotonic_witness :
    wDoneState.buildings 1 = BldgState.Done ∧
    processBuilding wDoneState 1 = (wDoneState, none) ∧
    runTicks (Phase.active ⟨0, wStoreState⟩) [wTick] = Phase.active ⟨0 + 1, wStoreState⟩ ∧
    (⟨0 + 1, wStoreState⟩ : GameSt).state.buildings 7 = BldgState.Store ∧
    transitionCount (Phase.active ⟨0, wStoreState⟩) [wTick] 7 ≤ 1 := by
  have hrun : runTicks (Phase.active ⟨0, wStoreState⟩) [wTick] =
      Phase.active ⟨0 + 1, wStoreState⟩ := by
    show tick (Phase.active ⟨0, wStoreState⟩) wTick = Phase.active ⟨0 + 1, wStoreState⟩
    rw [tick, if_neg (by norm_num [wStoreState, GameState.init, wLevel, wTick])]
    rfl
  refine ⟨rfl, (building_state_monotonic 1).1 wDoneState rfl, hrun,
    (building_state_monotonic 7).2.1 ⟨0, wStoreState⟩ [wTick] ⟨0 + 1, wStoreState⟩ hrun rfl,
    (building_state_monotonic 7).2.2 (Phase.active ⟨0, wStoreState⟩) [wTick]⟩

/-! ## C3: the resource clamp invariant -/

/-- The clamp invariant of the resource model, carried through a run
together with the nonnegativity of the (immutable) boost capacity. -/
def EBInv (g : GameSt) : Prop :=
  g.state.energy ≤ g.state.vehicle.max_energy ∧
  0 ≤ g.state.boost ∧ g.state.boost ≤ g.state.vehicle.max_boost ∧
  0 ≤ g.state.vehicle.max_boost

theorem present_dropped_energy_le (s : GameState) (id : ℕ) :
    (present_dropped s id).1.energy ≤ s.energy := by
  unfold present_dropped
  split
  · exact Nat.le_refl _
  · cases h : s.buildings id <;> simp [Nat.sub_le]

theorem present_dropped_vehicle (s : GameState) (id : ℕ) :
    (present_dropped s id).1.vehicle = s.vehicle := by
  unfold present_dropped
  split
  · rfl
  · cases h : s.buildings id <;> simp

theorem present_dropped_boost (s : GameState) (id : ℕ) :
    (present_dropped s id).1.boost = s.boost := by
  unfold present_dropped
  split
  · rfl
  · cases h : s.buildings id <;> simp

theorem processBuilding_resources (s : GameState) (b : ℕ)
    (h : s.energy ≤ s.vehicle.max_energy) :
    (processBuilding s b).1.energy ≤ (processBuilding s b).1.vehicle.max_energy ∧
    (processBuilding s b).1.vehicle = s.vehicle ∧
    (processBuilding s b).1.boost = s.boost := by
  unfold processBuilding
  cases hb : s.buildings b with
  | Undelivered r =>
      simp only
      cases hpd : present_dropped s b with
      | mk s1 ev =>
          have he := present_dropped_energy_le s b
          have hv := present_dropped_vehicle s b
          have hbo := present_dropped_boost s b
          rw [hpd] at he hv hbo
          cases ev <;> exact ⟨by rw [hv]; exact Nat.le_trans he h, hv, hbo⟩
  | Store =>
      simp only
      split
      · refine ⟨?_, rfl, rfl⟩
        show s.energy + (s.vehicle.max_energy - s.energy) ≤ s.vehicle.max_energy
        rw [Nat.add_sub_cancel' h]
      · exact ⟨h, rfl, rfl⟩
  | Done => exact ⟨h, rfl, rfl⟩

theorem processBuildings_resources (bs : List ℕ) (s : GameState)
    (h : s.energy ≤ s.vehicle.max_energy) :
    (processBuildings s bs).energy ≤ (processBuildings s bs).vehicle.max_energy ∧
    (processBuildings s bs).vehicle = s.vehicle ∧
    (processBuildings s bs).boost = s.boost := by
  induction bs generalizing s with
  | nil => exact ⟨h, rfl, rfl⟩
  | cons b bs ih =>
      have h1 := processBuilding_resources s b h
      have h2 := ih (processBuilding s b).1 h1.1
      have hshow : processBuildings s (b :: bs) =
          processBuildings (processBuilding s b).1 bs := rfl
      rw [hshow]
      exact ⟨h2.1, h2.2.1.trans h1.2.1, h2.2.2.trans h1.2.2⟩

theorem tick_EBInv {g g1 : GameSt} {t : TickInput} (hdt : 0 ≤ t.dt)
    (hinv : EBInv g) (h : tick (Phase.active g) t = Phase.active g1) :
    EBInv g1 := by
  obtain ⟨hE, hb0, hbM, hM0⟩ := hinv
  simp only [tick] at h
  by_cases hc : g.state.level.time_limit ≤ g.time + t.dt
  · rw [if_pos hc] at h
    exact Phase.noConfusion h
  · rw [if_neg hc] at h
    injection h with h
    subst h
    -- invariant after boost depletion
    have hdep : (boostDeplete g.state t).energy ≤
          (boostDeplete g.state t).vehicle.max_energy ∧
        0 ≤ (boostDeplete g.state t).boost ∧
        (boostDeplete g.state t).boost ≤ (boostDeplete g.state t).vehicle.max_boost ∧
        0 ≤ (boostDeplete g.state t).vehicle.max_boost := by
      unfold boostDeplete
      split
      · exact ⟨hE, le_max_right _ _,
          max_le (le_trans (by linarith) hbM) hM0, hM0⟩
      · exact ⟨hE, hb0, hbM, hM0⟩
    obtain ⟨hE1, hb01, hbM1, hM01⟩ := hdep
    have hpb := processBuildings_resources t.hitBuildings (boostDeplete g.state t) hE1
    obtain ⟨hE2, hV2, hB2⟩ := hpb
    have hrate : (0:ℚ) ≤ t.dt * ACQUIRE_BOOST_RATE :=
      mul_nonneg hdt (by norm_num [ACQUIRE_BOOST_RATE])
    unfold EBInv boostAccrue
    split
    · exact ⟨hE2, le_min (by rw [hB2]; linarith) (by rw [hV2]; exact hM01),
        min_le_right _ _, by rw [hV2]; exact hM01⟩
    · exact ⟨hE2, by rw [hB2]; exact hb01,
        by rw [hB2, hV2]; exact hbM1, by rw [hV2]; exact hM01⟩

theorem runTicks_EBInv {g g1 : GameSt} {ts : List TickInput}
    (hts : ∀ t ∈ ts, 0 ≤ t.dt) (hinv : EBInv g)
    (h : runTicks (Phase.active g) ts = Phase.active g1) : EBInv g1 := by
  induction ts generalizing g with
  | nil =>
      cases h
      exact hinv
  | cons t ts ih =>
      cases hstep : tick (Phase.active g) t with
      | ended sc =>
          rw [runTicks, List.foldl_cons, hstep] at h
          rw [show List.foldl tick (Phase.ended sc) ts = runTicks (Phase.ended sc) ts from rfl,
            runTicks_ended] at h
          cases h
      | active g2 =>
          rw [runTicks, List.foldl_cons, hstep] at h
          exact ih (fun t2 ht2 => hts t2 (List.mem_cons_of_mem t ht2))
            (tick_EBInv (hts t (List.mem_cons_self t ts)) hinv hstep) h

/-- C3: starting a run with full energy and zero boost, after any sequence
of nonnegative ticks (with arbitrary boost accrual, boost depletion,
deliveries and store refuels interleaved) the energy stays within
`[0, max_energy]` and the boost within `[0, max_boost]`. -/
theorem energy_boost_in_bounds (level : Level) (vehicle : Vehicle)
    (buildings : ℕ → BldgState) (hmb : 0 ≤ vehicle.max_boost)
    (ts : List TickInput) (hts : ∀ t ∈ ts, 0 ≤ t.dt) (g1 : GameSt)
    (hrun : runTicks (Phase.active ⟨0, GameState.init level vehicle buildings⟩) ts =
      Phase.active g1) :
    0 ≤ g1.state.energy ∧ g1.state.energy ≤ g1.state.vehicle.max_energy ∧
    0 ≤ g1.state.boost ∧ g1.state.boost ≤ g1.state.vehicle.max_boost := by
  have hinit : EBInv ⟨0, GameState.init level vehicle buildings⟩ :=
    ⟨Nat.le_refl _, le_refl 0, hmb, hmb⟩
  have h := runTicks_EBInv hts hinit hrun
  exact ⟨Nat.zero_le _, h.1, h.2.1, h.2.2.1⟩

/-- A boost-accruing tick: space held (with zero boost this changes
nothing) while driving on a qualifying road. -/
def wGoodTick : TickInput :=
  { dt := 1, spaceHeld := true, hitBuildings := [], onGoodRoad := true }

/-- The phase after running `wGoodTick` from the initial state. -/
def wAfterGood : GameSt :=
  ⟨0 + 1, boostAccrue (processBuildings (boostDeplete wState wGoodTick) []) wGoodTick⟩

/-- Witness for C3: one concrete boost-accruing tick from the initial
state keeps energy and boost inside their bounds. -/
theorem energy_boost_in_bounds_witness :
    (0 : ℚ) ≤ wVehicle.max_boost ∧
    runTicks (Phase.active ⟨0, GameState.init wLevel wVehicle wBuildings⟩) [wGoodTick] =
      Phase.active wAfterGood ∧
    (0 ≤ wAfterGood.state.energy ∧
      wAfterGood.state.energy ≤ wAfterGood.state.vehicle.max_energy ∧
      0 ≤ wAfterGood.state.boost ∧
      wAfterGood.state.boost ≤ wAfterGood.state.vehicle.max_boost) := by
  have hrun : runTicks (Phase.active ⟨0, GameState.init wLevel wVehicle wBuildings⟩)
      [wGoodTick] = Phase.active wAfterGood := by
    show tick (Phase.active ⟨0, GameState.init wLevel wVehicle wBuildings⟩) wGoodTick =
      Phase.active wAfterGood
    rw [tick, if_neg (by norm_num [GameState.init, wLevel, wGoodTick])]
    rfl
  refine ⟨by norm_num [wVehicle], hrun, ?_⟩
  exact energy_boost_in_bounds wLevel wVehicle wBuildings
    (by norm_num [wVehicle]) [wGoodTick]
    (by intro t ht; simp at ht; subst ht; norm_num [wGoodTick])
    wAfterGood hrun

/-! ## C4: the movement integrator -/

/-- C4: `displacement` returns nothing exactly when no tick is available or
the net direction vector is zero; in that case facing is also unchanged;
otherwise facing becomes `atan2 y x` of the net vector and the result is
`(-m cos facing, -m sin facing)` with `m = dt * HACK * speed`. -/
theorem displacement_spec (facing : ℝ) (dt : Option ℝ) (keys : DirKeys)
    (speed : ℝ) :
    ((displacement facing dt keys speed).1 = none ↔
      dt = none ∨ (netX keys = 0 ∧ netY keys = 0)) ∧
    ((dt = none ∨ (netX keys = 0 ∧ netY keys = 0)) →
      displacement facing dt keys speed = (none, facing)) ∧
    (∀ d : ℝ, dt = some d → ¬(netX keys = 0 ∧ netY keys = 0) →
      displacement facing dt keys speed =
        (some (-(d * HACK * speed) * Real.cos (atan2 (netY keys) (netX keys)),
               -(d * HACK * speed) * Real.sin (atan2 (netY keys) (netX keys))),
         atan2 (netY keys) (netX keys))) := by
  cases dt with
  | none =>
      refine ⟨by simp [displacement], fun _ => by simp [displacement], ?_⟩
      intro d hd
      cases hd
  | some d0 =>
      by_cases hz : netX keys = 0 ∧ netY keys = 0
      · refine ⟨by simp [displacement, hz], fun _ => by simp [displacement, hz], ?_⟩
        intro d hd hnz
        exact absurd hz hnz
      · refine ⟨by simp [displacement, hz], ?_, ?_⟩
        · intro h
          rcases h with h | h
          · cases h
          · exact absurd h hz
        · intro d hd hnz
          injection hd with hd
          subst hd
          simp [displacement, hz]

/-- Witness for C4: with no key held the controller reports no movement and
keeps facing; with only the left arrow held for a one-second tick at speed
3 it faces `atan2 0 1` and moves by `-(1 * HACK * 3)` times the facing
direction. -/
theorem displacement_spec_witness :
    displacement 0 (some 1) ⟨false, false, false, false⟩ 3 = (none, 0) ∧
    displacement 0 (some 1) ⟨true, false, false, false⟩ 3 =
      (some (-(1 * HACK * 3) * Real.cos (atan2 0 1),
             -(1 * HACK * 3) * Real.sin (atan2 0 1)),
       atan2 0 1) := by
  constructor
  · exact (displacement_spec 0 (some 1) ⟨false, false, false, false⟩ 3).2.1
      (Or.inr ⟨by norm_num [netX], by norm_num [netY]⟩)
  · have h := (displacement_spec 0 (some 1) ⟨true, false, false, false⟩ 3).2.2 1 rfl
      (by norm_num [netX, netY])
    simpa [netX, netY] using h

/-! ## C6: the top-3 high-score list -/

theorem updated_scores_sorted (scores : List ℕ) (score : ℕ) :
    (updated_scores scores score).Sorted (· ≥ ·) := by
  have h1 : ((scores ++ [score]).insertionSort (· ≤ ·)).Sorted (· ≤ ·) :=
    List.sorted_insertionSort _ _
  have h2 : (((scores ++ [score]).insertionSort (· ≤ ·)).reverse).Sorted (· ≥ ·) := by
    rw [List.Sorted, List.pairwise_reverse]
    exact h1.imp fun hab => hab
  exact h2.sublist (List.take_sublist 3 _)

theorem updated_scores_length (scores : List ℕ) (score : ℕ) :
    (updated_scores scores score).length ≤ 3 :=
  List.length_take_le 3 _

/-- In a descending-sorted list, an element beaten by fewer than `n` others
appears among the first `n` entries. -/
theorem mem_take_of_count_lt (s : ℕ) :
    ∀ (l : List ℕ) (n : ℕ), l.Sorted (· ≥ ·) → s ∈ l →
      l.countP (fun a => decide (s < a)) < n → s ∈ l.take n := by
  intro l
  induction l with
  | nil => intro n _ hmem; cases hmem
  | cons a l ih =>
      intro n hsort hmem hcount
      obtain ⟨m, rfl⟩ : ∃ m, n = m + 1 :=
        ⟨n - 1, by have := Nat.zero_le ((a :: l).countP fun a => decide (s < a)); omega⟩
      rw [List.take_succ_cons]
      by_cases hsa : s = a
      · exact hsa ▸ List.mem_cons_self _ _
      · have hmem2 : s ∈ l := by
          rcases List.mem_cons.mp hmem with h | h
          · exact absurd h hsa
          · exact h
        have hage : ∀ b ∈ l, a ≥ b := (List.sorted_cons.mp hsort).1
        have hlt : s < a := lt_of_le_of_ne (hage s hmem2) hsa
        have hc2 : l.countP (fun a => decide (s < a)) < m := by
          rw [List.countP_cons] at hcount
          simp [hlt] at hcount
          omega
        exact List.mem_cons_of_mem a
          (ih m (List.sorted_cons.mp hsort).2 hmem2 hc2)

theorem updated_scores_mem (scores : List ℕ) (score : ℕ)
    (h : scores.countP (fun a => decide (score < a)) < 3) :
    score ∈ updated_scores scores score := by
  have hperm : List.Perm ((scores ++ [score]).insertionSort (· ≤ ·))
      (scores ++ [score]) := List.perm_insertionSort _ _
  have hsort : (((scores ++ [score]).insertionSort (· ≤ ·)).reverse).Sorted (· ≥ ·) := by
    rw [List.Sorted, List.pairwise_reverse]
    exact (List.sorted_insertionSort (fun a b => a ≤ b) _).imp fun hab => hab
  have hmem : score ∈ ((scores ++ [score]).insertionSort (· ≤ ·)).reverse := by
    rw [List.mem_reverse]
    exact hperm.mem_iff.mpr (by simp)
  have hcount : (((scores ++ [score]).insertionSort (· ≤ ·)).reverse).countP
      (fun a => decide (score < a)) < 3 := by
    rw [(List.reverse_perm _).countP_eq, hperm.countP_eq, List.countP_append]
    simpa using h
  exact mem_take_of_count_lt score _ 3 hsort hmem hcount

/-- The per-key update of the high-score map keeps all keys and replaces
the looked-up value at `key`. -/
theorem lookup_map_update (l : List (String × List ℕ)) (key : String)
    (v2 : List ℕ) (h : (l.lookup key).isSome) :
    (l.map fun p => if p.1 = key then (p.1, v2) else p).lookup key = some v2 := by
  induction l with
  | nil => simp [List.lookup] at h
  | cons p l ih =>
      obtain ⟨k, v⟩ := p
      by_cases hp : k = key
      · subst hp
        have hif : (if (k, v).1 = k then ((k, v).1, v2) else (k, v)) = (k, v2) := by
          simp
        rw [List.map_cons, hif, List.lookup]
        simp
      · have hbeq : (key == k) = false := by
          simp only [beq_eq_false_iff_ne]
          exact fun he => hp he.symm
        have hif : (if (k, v).1 = key then ((k, v).1, v2) else (k, v)) = (k, v) := by
          simp [hp]
        rw [List.map_cons, hif]
        rw [List.lookup] at h ⊢
        rw [hbeq] at h ⊢
        exact ih h

theorem unlock_result_high_scores (s1 : Session) (idx : ℕ) (lvl : Level)
    (score : ℕ) :
    (unlock_result s1 idx lvl score).1.high_scores = s1.high_scores := by
  unfold unlock_result
  split
  · split <;> rfl
  · rfl

/-- C6: after a successful `record_score`, the recorded level's high-score
list is the sorted-descending, length-at-most-3 update of the old list, and
it contains the new score whenever fewer than three old entries beat it. -/
theorem record_score_top3 (s : Session) (level : String) (score : ℕ)
    (old : List ℕ) (r : RecordOutcome)
    (hold : s.high_scores.lookup level = some old)
    (h : record_score s level score = some r) :
    r.session.high_scores.lookup level = some (updated_scores old score) ∧
    (updated_scores old score).Sorted (· ≥ ·) ∧
    (updated_scores old score).length ≤ 3 ∧
    (old.countP (fun a => decide (score < a)) < 3 →
      score ∈ updated_scores old score) := by
  refine ⟨?_, updated_scores_sorted old score, updated_scores_length old score,
    fun hc => updated_scores_mem old score hc⟩
  unfold record_score at h
  rw [hold] at h
  simp only [Option.bind_eq_bind', Option.some_bind'] at h
  cases hidx : s.levels.findIdx? (fun lvl => lvl.title == level) with
  | none => rw [hidx] at h; simp at h
  | some idx =>
      rw [hidx] at h
      simp only [Option.bind_eq_bind', Option.some_bind'] at h
      cases hlvl : s.levels[idx]? with
      | none => rw [hlvl] at h; simp at h
      | some lvl =>
          rw [hlvl] at h
          simp only [Option.bind_eq_bind', Option.some_bind', Option.pure_def, Option.some_inj] at h
          rw [← h]
          simp only [unlock_result_high_scores]
          exact lookup_map_update s.high_scores level (updated_scores old score)
            (by rw [hold]; rfl)

/-- The session after only the high-score map update of `record_score`. -/
def updated_session (s : Session) (level : String) (scores2 : List ℕ) : Session :=
  { s with high_scores := s.high_scores.map fun p =>
      if p.1 = level then (p.1, scores2) else p }

/-- Closed form of a successful `record_score`. -/
theorem record_score_eq (s : Session) (level : String) (score : ℕ)
    (old : List ℕ) (idx : ℕ) (lvl : Level)
    (hold : s.high_scores.lookup level = some old)
    (hidx : s.levels.findIdx? (fun l => l.title == level) = some idx)
    (hlvl : s.levels[idx]? = some lvl) :
    record_score s level score =
      some { session :=
               (unlock_result (updated_session s level (updated_scores old score))
                 idx lvl score).1,
             msg :=
               (unlock_result (updated_session s level (updated_scores old score))
                 idx lvl score).2,
             writes :=
               [(unlock_result (updated_session s level (updated_scores old score))
                 idx lvl score).1] } := by
  unfold record_score
  rw [hold]
  simp only [Option.bind_eq_bind', Option.some_bind']
  rw [hidx]
  simp only [Option.bind_eq_bind', Option.some_bind']
  rw [hlvl]
  simp only [Option.bind_eq_bind', Option.some_bind', Option.pure_def]
  rfl

theorem unlock_result_unlocks (s1 : Session) (idx : ℕ) (lvl : Level) (score : ℕ)
    (h1 : idx + 1 = s1.levels_unlocked) (h2 : lvl.goal ≤ score)
    (h3 : idx + 1 ≠ s1.levels.length) :
    (unlock_result s1 idx lvl score).1.levels_unlocked = s1.levels_unlocked + 1 ∧
    ∃ msgs, (unlock_result s1 idx lvl score).2 = some msgs ∧ msgs ≠ [] := by
  unfold unlock_result
  rw [if_pos ⟨h1, h2⟩, if_neg h3]
  exact ⟨rfl, _, rfl, by simp⟩

theorem unlock_result_no_unlock (s1 : Session) (idx : ℕ) (lvl : Level) (score : ℕ)
    (h : ¬(idx + 1 = s1.levels_unlocked ∧ lvl.goal ≤ score)) :
    unlock_result s1 idx lvl score = (s1, none) := by
  unfold unlock_result
  rw [if_neg h]

/-- A second concrete level following `wLevel`. -/
def wLevel2 : Level :=
  { title := "Level 2", time_limit := 90, goal := 150, unlock_upzones := 0,
    unlock_vehicles := [] }

/-- A concrete session: two levels, existing scores on the first, only the
first level unlocked. -/
def wSession : Session :=
  { levels := [wLevel, wLevel2],
    high_scores := [("Level 1", [7, 6, 5]), ("Level 2", [])],
    levels_unlocked := 1,
    current_vehicle := "sleigh",
    vehicles_unlocked := ["sleigh"],
    upzones_unlocked := 0 }

/-- The session `wSession` after recording a score of 6 on the first level. -/
def wSession1 : Session :=
  { wSession with high_scores := [("Level 1", [7, 6, 6]), ("Level 2", [])] }

/-- The outcome of recording a score of 6 on the first level: no unlock,
one persist. -/
def wOutcome1 : RecordOutcome :=
  { session := wSession1, msg := none, writes := [wSession1] }

/-- Witness for C6: recording 6 against old scores `[7, 6, 5]` yields the
sorted list `[7, 6, 6]` of length 3 containing the new score. -/
theorem record_score_top3_witness :
    wSession.high_scores.lookup "Level 1" = some [7, 6, 5] ∧
    record_score wSession "Level 1" 6 = some wOutcome1 ∧
    (wOutcome1.session.high_scores.lookup "Level 1" =
        some (updated_scores [7, 6, 5] 6) ∧
      (updated_scores [7, 6, 5] 6).Sorted (· ≥ ·) ∧
      (updated_scores [7, 6, 5] 6).length ≤ 3 ∧
      (([7, 6, 5] : List ℕ).countP (fun a => decide ((6 : ℕ) < a)) < 3 →
        (6 : ℕ) ∈ updated_scores [7, 6, 5] 6)) := by
  have h1 : wSession.high_scores.lookup "Level 1" = some [7, 6, 5] := by decide
  have h2 : record_score wSession "Level 1" 6 = some wOutcome1 := by decide
  exact ⟨h1, h2, record_score_top3 wSession "Level 1" 6 [7, 6, 5] wOutcome1 h1 h2⟩

/-! ## C7: unlock behavior of record_score -/

/-- C7: with the goal met on the most recently unlocked level (and a next
level existing), `record_score` unlocks the next level and returns a
non-empty message list; a run on an already-unlocked level that misses the
goal returns no message but still updates that level's high-score list. -/
theorem record_score_unlock_behavior :
    (∀ (s : Session) (level : String) (score : ℕ) (old : List ℕ) (idx : ℕ)
        (lvl : Level) (r : RecordOutcome),
      s.high_scores.lookup level = some old →
      s.levels.findIdx? (fun l => l.title == level) = some idx →
      s.levels[idx]? = some lvl →
      idx + 1 = s.levels_unlocked → lvl.goal ≤ score →
      idx + 1 < s.levels.length →
      record_score s level score = some r →
      r.session.levels_unlocked = s.levels_unlocked + 1 ∧
      ∃ msgs, r.msg = some msgs ∧ msgs ≠ []) ∧
    (∀ (s : Session) (level : String) (score : ℕ) (old : List ℕ) (idx : ℕ)
        (lvl : Level) (r : RecordOutcome),
      s.high_scores.lookup level = some old →
      s.levels.findIdx? (fun l => l.title == level) = some idx →
      s.levels[idx]? = some lvl →
      idx + 1 ≤ s.levels_unlocked → score < lvl.goal →
      record_score s level score = some r →
      r.msg = none ∧
      r.session.high_scores.lookup level = some (updated_scores old score)) := by
  constructor
  · intro s level score old idx lvl r hold hidx hlvl hfront hgoal hlt h
    rw [record_score_eq s level score old idx lvl hold hidx hlvl,
      Option.some_inj] at h
    subst h
    exact unlock_result_unlocks (updated_session s level (updated_scores old score))
      idx lvl score hfront hgoal (Nat.ne_of_lt hlt)
  · intro s level score old idx lvl r hold hidx hlvl hunlocked hgoal h
    rw [record_score_eq s level score old idx lvl hold hidx hlvl,
      Option.some_inj] at h
    subst h
    have hnone := unlock_result_no_unlock
      (updated_session s level (updated_scores old score)) idx lvl score
      (fun hc => absurd hc.2 (Nat.not_le.mpr hgoal))
    constructor
    · show (unlock_result (updated_session s level (updated_scores old score))
        idx lvl score).2 = none
      rw [hnone]
    · show (unlock_result (updated_session s level (updated_scores old score))
        idx lvl score).1.high_scores.lookup level = some (updated_scores old score)
      rw [hnone]
      exact lookup_map_update s.high_scores level (updated_scores old score)
        (by rw [hold]; rfl)

/-- The session `wSession` after recording 120 on the first level: scores updated, the
second level, one upzone and the car unlocked. -/
def wSession2 : Session :=
  { levels := [wLevel, wLevel2],
    high_scores := [("Level 1", [120, 7, 6]), ("Level 2", [])],
    levels_unlocked := 2,
    current_vehicle := "sleigh",
    vehicles_unlocked := ["sleigh", "car"],
    upzones_unlocked := 1 }

/-- The outcome of recording 120 on the first level. -/
def wOutcome2 : RecordOutcome :=
  { session := wSession2,
    msg := some ["New level unlocked!",
                 "Unlocked the ability to upzone 1 buildings",
                 "Unlocked the car"],
    writes := [wSession2] }

/-- Witness for C7: a 120-run on the frontier level unlocks the next level
with messages; a repeat 6-run misses the goal, returns no message and still
updates the scores. -/
theorem record_score_unlock_behavior_witness :
    (wSession.high_scores.lookup "Level 1" = some [7, 6, 5] ∧
     wSession.levels.findIdx? (fun l => l.title == "Level 1") = some 0 ∧
     wSession.levels[0]? = some wLevel ∧
     0 + 1 = wSession.levels_unlocked ∧ wLevel.goal ≤ 120 ∧
     0 + 1 < wSession.levels.length ∧
     record_score wSession "Level 1" 120 = some wOutcome2 ∧
     (wOutcome2.session.levels_unlocked = wSession.levels_unlocked + 1 ∧
      ∃ msgs, wOutcome2.msg = some msgs ∧ msgs ≠ [])) ∧
    ((6 : ℕ) < wLevel.goal ∧
     record_score wSession "Level 1" 6 = some wOutcome1 ∧
     (wOutcome1.msg = none ∧
      wOutcome1.session.high_scores.lookup "Level 1" =
        some (updated_scores [7, 6, 5] 6))) := by
  have hold : wSession.high_scores.lookup "Level 1" = some [7, 6, 5] := by decide
  have hidx : wSession.levels.findIdx? (fun l => l.title == "Level 1") = some 0 := by
    decide
  have hlvl : wSession.levels[0]? = some wLevel := by decide
  have h120 : record_score wSession "Level 1" 120 = some wOutcome2 := by decide
  have h6 : record_score wSession "Level 1" 6 = some wOutcome1 := by decide
  refine ⟨⟨hold, hidx, hlvl, by decide, by decide, by decide, h120, ?_⟩,
    ⟨by decide, h6, ?_⟩⟩
  · exact record_score_unlock_behavior.1 wSession "Level 1" 120 [7, 6, 5] 0 wLevel
      wOutcome2 hold hidx hlvl (by decide) (by decide) (by decide) h120
  · exact record_score_unlock_behavior.2 wSession "Level 1" 6 [7, 6, 5] 0 wLevel
      wOutcome1 hold hidx hlvl (by decide) (by decide) h6

/-! ## C8: resilient session loading -/

/-- Every current level title maps to an empty top-3 list in the default
ledger. -/
theorem default_session_lookup (levels : List Level) (t : String)
    (h : ∃ lvl ∈ levels, lvl.title = t) :
    ((levels.map fun l => (l.title, ([] : List ℕ))).lookup t) = some [] := by
  induction levels with
  | nil =>
      rcases h with ⟨lvl, hm, _⟩
      cases hm
  | cons a l ih =>
      by_cases hat : t = a.title
      · rw [List.map_cons, List.lookup,
          show (t == a.title) = true from beq_iff_eq.mpr hat]
      · rw [List.map_cons, List.lookup,
          show (t == a.title) = false from beq_eq_false_iff_ne.mpr hat]
        refine ih ?_
        rcases h with ⟨lvl, hm, ht⟩
        rcases List.mem_cons.mp hm with rfl | hm2
        · exact absurd ht.symm hat
        · exact ⟨lvl, hm2, ht⟩

/-- C8: loading persisted data whose level list differs from the current
one succeeds with the default ledger (empty top-3 per level, one level
unlocked, the sleigh as current and sole vehicle, no upzones) and the
staleness warning; matching persisted data is returned unchanged. -/
theorem load_resilient :
    (∀ (stored : Session) (levels : List Level), stored.levels ≠ levels →
      load (some stored) levels = (default_session levels, true) ∧
      (∀ lvl ∈ levels,
        (default_session levels).high_scores.lookup lvl.title = some []) ∧
      (default_session levels).levels_unlocked = 1 ∧
      (default_session levels).current_vehicle = "sleigh" ∧
      (default_session levels).vehicles_unlocked = ["sleigh"] ∧
      (default_session levels).upzones_unlocked = 0) ∧
    (∀ (stored : Session) (levels : List Level), stored.levels = levels →
      load (some stored) levels = (stored, false)) := by
  constructor
  · intro stored levels hne
    refine ⟨by simp [load, hne], ?_, rfl, rfl, rfl, rfl⟩
    intro lvl hm
    exact default_session_lookup levels lvl.title ⟨lvl, hm, rfl⟩
  · intro stored levels he
    simp [load, he]

/-- Witness for C8: a stored session over one level is discarded against a
two-level current list, and returned unchanged against a matching list. -/
theorem load_resilient_witness :
    (default_session [wLevel]).levels ≠ [wLevel, wLevel2] ∧
    load (some (default_session [wLevel])) [wLevel, wLevel2] =
      (default_session [wLevel, wLevel2], true) ∧
    wSession.levels = [wLevel, wLevel2] ∧
    load (some wSession) [wLevel, wLevel2] = (wSession, false) := by
  have hne : (default_session [wLevel]).levels ≠ [wLevel, wLevel2] := by decide
  have he : wSession.levels = [wLevel, wLevel2] := rfl
  exact ⟨hne,
    (load_resilient.1 (default_session [wLevel]) [wLevel, wLevel2] hne).1,
    he, load_resilient.2 wSession [wLevel, wLevel2] he⟩

/-! ## C9: persistence of ledger mutations (corrected) -/

/-- Counterexample to C9 as stated: `unlock_all` mutates the ledger (one
upzone and the car get unlocked on `wSession`) yet issues no persistence
write before returning. -/
theorem unlock_all_no_persist_cex :
    (unlock_all wSession).1 ≠ wSession ∧ (unlock_all wSession).2 = [] := by
  constructor
  · intro h
    have h2 := congrArg Session.upzones_unlocked h
    revert h2
    decide
  · rfl

/-- C9 (amended): `record_score` persists the mutated session synchronously
(one write, carrying the final session value, issued before it returns),
while `unlock_all` mutates the ledger without issuing any write. -/
theorem session_persist_behavior :
    (∀ (s : Session) (level : String) (score : ℕ) (r : RecordOutcome),
      record_score s level score = some r → r.writes = [r.session]) ∧
    (∀ s : Session, (unlock_all s).2 = []) := by
  constructor
  · intro s level score r h
    unfold record_score at h
    cases hl : s.high_scores.lookup level with
    | none => rw [hl] at h; simp at h
    | some old =>
        rw [hl] at h
        simp only [Option.bind_eq_bind', Option.some_bind'] at h
        cases hi : s.levels.findIdx? (fun l => l.title == level) with
        | none => rw [hi] at h; simp at h
        | some idx =>
            rw [hi] at h
            simp only [Option.bind_eq_bind', Option.some_bind'] at h
            cases hg : s.levels[idx]? with
            | none => rw [hg] at h; simp at h
            | some lvl =>
                rw [hg] at h
                simp only [Option.bind_eq_bind', Option.some_bind',
                  Option.pure_def, Option.some_inj] at h
                rw [← h]
  · intro s
    rfl

/-- Witness for C9 (amended): the concrete 6-run persists exactly its final
session, and `unlock_all` issues no write. -/
theorem session_persist_behavior_witness :
    record_score wSession "Level 1" 6 = some wOutcome1 ∧
    wOutcome1.writes = [wOutcome1.session] ∧
    (unlock_all wSession).2 = [] := by
  have h6 : record_score wSession "Level 1" 6 = some wOutcome1 := by decide
  exact ⟨h6, session_persist_behavior.1 wSession "Level 1" 6 wOutcome1 h6,
    session_persist_behavior.2 wSession⟩

/-! ## C10: unknown level titles make record_score panic -/

theorem lookup_eq_none_iff_no_key (l : List (String × List ℕ)) (key : String) :
    l.lookup key = none ↔ ∀ p ∈ l, p.1 ≠ key := by
  induction l with
  | nil => simp [List.lookup]
  | cons p l ih =>
      obtain ⟨k, v⟩ := p
      by_cases hk : key = k
      · subst hk
        rw [List.lookup, beq_self_eq_true]
        simp
      · rw [List.lookup, show (key == k) = false from beq_eq_false_iff_ne.mpr hk]
        rw [ih]
        constructor
        · intro h
          intro p hp
          rcases List.mem_cons.mp hp with rfl | hp2
          · exact fun he => hk he.symm
          · exact h p hp2
        · intro h p hp
          exact h p (List.mem_cons_of_mem _ hp)

/-- C10: `record_score` panics (returns no outcome) exactly when the level
title is not a key of the high-score map or names no level in the level
list; a known title is thus a precondition for it to return. -/
theorem record_score_panic_iff (s : Session) (level : String) (score : ℕ) :
    (record_score s level score = none ↔
      s.high_scores.lookup level = none ∨
      s.levels.findIdx? (fun l => l.title == level) = none) ∧
    (s.high_scores.lookup level = none ↔ ∀ p ∈ s.high_scores, p.1 ≠ level) ∧
    (s.levels.findIdx? (fun l => l.title == level) = none ↔
      ∀ lvl ∈ s.levels, lvl.title ≠ level) := by
  refine ⟨⟨?_, ?_⟩, lookup_eq_none_iff_no_key s.high_scores level, ?_⟩
  · intro h
    by_contra hno
    push_neg at hno
    obtain ⟨h1, h2⟩ := hno
    obtain ⟨old, hold⟩ := Option.ne_none_iff_exists'.mp h1
    obtain ⟨idx, hidx⟩ := Option.ne_none_iff_exists'.mp h2
    have hlen : idx < s.levels.length :=
      (List.findIdx?_eq_some_iff_findIdx_eq.mp hidx).1
    have hlvl : s.levels[idx]? = some s.levels[idx] :=
      List.getElem?_eq_getElem hlen
    rw [record_score_eq s level score old idx s.levels[idx] hold hidx hlvl] at h
    cases h
  · intro h
    rcases h with h | h
    · unfold record_score
      rw [h]
      rfl
    · cases hl : s.high_scores.lookup level with
      | none =>
          unfold record_score
          rw [hl]
          rfl
      | some old =>
          unfold record_score
          rw [hl]
          simp only [Option.bind_eq_bind', Option.some_bind']
          rw [h]
          rfl
  · rw [List.findIdx?_eq_none_iff]
    constructor
    · intro h lvl hm
      exact fun he => by simpa [he] using h lvl hm
    · intro h lvl hm
      exact beq_eq_false_iff_ne.mpr (h lvl hm)

end Santa
